import Mathlib

/-!
Shallow embedding of the fcnet topology engines (src/fcnet/src/simple.rs and
src/fcnet/src/namespaced/add.rs): the nftables object model, the rule
expression builders, and the Add/Check/Delete control flow of the simple
topology together with the Add control flow of the namespaced topology.
External kernel facilities (netlink, the nftables executor) are modelled as
succeeding; their invocations are recorded as an explicit effect trace.
-/

namespace Fcnet

/-- An IP address, carrying its textual form (the Rust code only ever uses
addresses via `.to_string()` and via their family). -/
inductive IpAddr where
  | v4 (a : String)
  | v6 (a : String)
deriving DecidableEq

/-- Textual form of the address, as produced by Rust's `to_string`. -/
def IpAddr.text : IpAddr → String
  | .v4 a => a
  | .v6 a => a

/-- Whether the address is IPv4. -/
def IpAddr.isV4 : IpAddr → Bool
  | .v4 _ => true
  | .v6 _ => false

/-- A CIDR value (`cidr::IpInet`): an address plus a network length. -/
structure IpInet where
  address : IpAddr
  network_length : Nat
deriving DecidableEq

/-- nftables address family tag of a rule/chain/table (`NfFamily`). -/
inductive NfFamily where
  | ip
  | ip6
  | inet
deriving DecidableEq

/-- Meta keys used by the expression builders (`MetaKey`). -/
inductive MetaKey where
  | iifname
  | oifname
deriving DecidableEq

/-- Match operators (`Operator`); only `EQ` is used. -/
inductive Operator where
  | eq
deriving DecidableEq

/-- nftables expressions, restricted to the vocabulary the builders use. -/
inductive NfExpr where
  | payloadField (protocol : String) (field : String)
  | meta (key : MetaKey)
  | str (s : String)
deriving DecidableEq

/-- nftables statements (`Statement`), restricted to the vocabulary used. -/
inductive Statement where
  | stmtMatch (left : NfExpr) (right : NfExpr) (op : Operator)
  | masquerade
  | accept
  | snat (toAddr : String)
  | dnat (toAddr : String)
deriving DecidableEq

/-- Chain types (`NfChainType`). -/
inductive NfChainType where
  | nat
  | filter
deriving DecidableEq

/-- Chain hooks (`NfHook`). -/
inductive NfHook where
  | prerouting
  | postrouting
  | forward
deriving DecidableEq

/-- Chain policies (`NfChainPolicy`). -/
inductive NfChainPolicy where
  | accept
deriving DecidableEq

/-- An nftables table object (`schema::Table`). -/
structure NfTableObj where
  family : NfFamily
  name : String
  handle : Option Nat
deriving DecidableEq

/-- An nftables chain object (`schema::Chain`). -/
structure NfChainObj where
  family : NfFamily
  table : String
  name : String
  ctype : Option NfChainType
  hook : Option NfHook
  prio : Option Int
  policy : Option NfChainPolicy
deriving DecidableEq

/-- An nftables rule object (`schema::Rule`). -/
structure NfRuleObj where
  family : NfFamily
  table : String
  chain : String
  expr : List Statement
  handle : Option Nat
deriving DecidableEq

/-- A listable nftables object (`NfListObject`). -/
inductive NfListObject where
  | tableObj (t : NfTableObj)
  | chainObj (c : NfChainObj)
  | ruleObj (r : NfRuleObj)
deriving DecidableEq

/-- A ruleset entry (`NfObject`): either a list object or some command
object, which every scan in the source skips. -/
inductive NfObject where
  | listObject (o : NfListObject)
  | cmdObject
deriving DecidableEq

/-- A ruleset snapshot (`Nftables { objects }`). -/
structure Ruleset where
  objects : List NfObject
deriving DecidableEq

/-- One entry of an nftables batch (`Batch::add` / `Batch::delete`). -/
inductive BatchOp where
  | add (o : NfListObject)
  | delete (o : NfListObject)
deriving DecidableEq

/-- Modelled from the spec: the fixed identifiers `NFT_TABLE`,
`NFT_POSTROUTING_CHAIN`, `NFT_FILTER_CHAIN`, `NFT_PREROUTING_CHAIN` are
compile-time constants defined outside the sources in scope; only their
fixedness and distinctness matter here. -/
def NFT_TABLE : String := "fcnet"

/-- Modelled from the spec: fixed postrouting chain name. -/
def NFT_POSTROUTING_CHAIN : String := "postrouting"

/-- Modelled from the spec: fixed filter chain name. -/
def NFT_FILTER_CHAIN : String := "filter"

/-- Modelled from the spec: fixed prerouting chain name. -/
def NFT_PREROUTING_CHAIN : String := "prerouting"

/-- Object kinds used by `ObjectNotFound` (`FirecrackerNetworkObjectType`). -/
inductive FirecrackerNetworkObjectType where
  | tap
  | veth
  | nfTable
  | nfPostroutingChain
  | nfPreroutingChain
  | nfFilterChain
  | nfMasqueradeRule
  | nfEgressForwardRule
  | nfIngressForwardRule
  | nfSnatRule
  | nfDnatRule
deriving DecidableEq

/-- Error kind (`FirecrackerNetworkError`), restricted to the variants the
embedded control flow can produce when the external facilities succeed. -/
inductive FirecrackerNetworkError where
  | objectNotFound (t : FirecrackerNetworkObjectType)
  | forbiddenDualStackInRoute
deriving DecidableEq

/-- The network description (`FirecrackerNetwork`), restricted to the fields
the embedded code reads. -/
structure FirecrackerNetwork where
  iface_name : String
  tap_name : String
  tap_ip : IpInet
  guest_ip : IpInet
deriving DecidableEq

/-- Modelled from the spec: `nat_proto_from_addr` (in util, outside the
sources in scope) yields the L3 protocol tag `ip` for IPv4 and `ip6` for
IPv6, derived from the address family. -/
def nat_proto_from_addr : IpAddr → String
  | .v4 _ => "ip"
  | .v6 _ => "ip6"

/-- Modelled from the spec: `FirecrackerNetworkExt::nf_family` (in util,
outside the sources in scope) derives the nftables family from the
network's address family. -/
def nf_family (n : FirecrackerNetwork) : NfFamily :=
  match n.guest_ip.address with
  | .v4 _ => .ip
  | .v6 _ => .ip6

/-- `masq_expr` from simple.rs: match `saddr == guest_ip` for the guest's
L3 protocol, match `oifname == iface_name`, then masquerade. -/
def masq_expr (n : FirecrackerNetwork) : List Statement :=
  [ .stmtMatch (.payloadField (nat_proto_from_addr n.guest_ip.address) "saddr")
      (.str n.guest_ip.address.text) .eq
  , .stmtMatch (.meta .oifname) (.str n.iface_name) .eq
  , .masquerade ]

/-- `forward_expr` from simple.rs: match `iifname == tap_name`, match
`oifname == iface_name`, then accept. -/
def forward_expr (n : FirecrackerNetwork) : List Statement :=
  [ .stmtMatch (.meta .iifname) (.str n.tap_name) .eq
  , .stmtMatch (.meta .oifname) (.str n.iface_name) .eq
  , .accept ]

/-- The rule objects of a snapshot, in order (what the `for` loops over
`current_ruleset.objects` visit in their `Rule` arms). -/
def rulesOfList (objs : List NfObject) : List NfRuleObj :=
  objs.filterMap fun o =>
    match o with
    | .listObject (.ruleObj r) => some r
    | _ => none

/-- The rule objects of a ruleset snapshot, in order. -/
def rulesOf (rs : Ruleset) : List NfRuleObj :=
  rulesOfList rs.objects

/-- Whether a chain with the given name exists in `NFT_TABLE` for the given
family in the snapshot. -/
def chainExists (fam : NfFamily) (name : String) (rs : Ruleset) : Bool :=
  rs.objects.any fun o =>
    match o with
    | .listObject (.chainObj c) =>
        decide (c.family = fam ∧ c.table = NFT_TABLE ∧ c.name = name)
    | _ => false

/-- Whether the base table exists for the given family in the snapshot. -/
def tableExists (fam : NfFamily) (rs : Ruleset) : Bool :=
  rs.objects.any fun o =>
    match o with
    | .listObject (.tableObj t) => decide (t.family = fam ∧ t.name = NFT_TABLE)
    | _ => false

/-- The base postrouting chain: type NAT, hook postrouting, priority 100,
policy accept. -/
def basePostroutingChain (fam : NfFamily) : NfChainObj :=
  { family := fam, table := NFT_TABLE, name := NFT_POSTROUTING_CHAIN,
    ctype := some .nat, hook := some .postrouting, prio := some 100,
    policy := some .accept }

/-- The base filter chain: type filter, hook forward, priority 0, policy
accept. -/
def baseFilterChain (fam : NfFamily) : NfChainObj :=
  { family := fam, table := NFT_TABLE, name := NFT_FILTER_CHAIN,
    ctype := some .filter, hook := some .forward, prio := some 0,
    policy := some .accept }

/-- Modelled from the spec: `add_base_chains_if_needed` (in util, outside
the sources in scope) ensures `NFT_TABLE`, `NFT_POSTROUTING_CHAIN` and
`NFT_FILTER_CHAIN` exist, adding to the batch only what is missing;
absence is determined by scanning the snapshot for a matching
family+table+name. -/
def add_base_chains_if_needed (n : FirecrackerNetwork) (current : Ruleset) :
    List BatchOp :=
  (if tableExists (nf_family n) current then []
   else [.add (.tableObj { family := nf_family n, name := NFT_TABLE, handle := none })])
  ++ (if chainExists (nf_family n) NFT_POSTROUTING_CHAIN current then []
      else [.add (.chainObj (basePostroutingChain (nf_family n)))])
  ++ (if chainExists (nf_family n) NFT_FILTER_CHAIN current then []
      else [.add (.chainObj (baseFilterChain (nf_family n)))])

/-- Modelled from the spec: `check_base_chains` (in util, outside the
sources in scope) returns `ObjectNotFound` for any missing base object
without mutating anything. -/
def check_base_chains (n : FirecrackerNetwork) (current : Ruleset) :
    Except FirecrackerNetworkError Unit :=
  if ¬ tableExists (nf_family n) current then
    .error (.objectNotFound .nfTable)
  else if ¬ chainExists (nf_family n) NFT_POSTROUTING_CHAIN current then
    .error (.objectNotFound .nfPostroutingChain)
  else if ¬ chainExists (nf_family n) NFT_FILTER_CHAIN current then
    .error (.objectNotFound .nfFilterChain)
  else
    .ok ()

/-- The masquerade-existence scan in simple `add`: some rule object of the
snapshot has chain `NFT_POSTROUTING_CHAIN`, table `NFT_TABLE` and
expression `masq_expr`. -/
def masqueradeRuleExists (n : FirecrackerNetwork) (current : Ruleset) : Bool :=
  current.objects.any fun o =>
    match o with
    | .listObject (.ruleObj rule) =>
        decide (rule.chain = NFT_POSTROUTING_CHAIN ∧ rule.table = NFT_TABLE ∧
          rule.expr = masq_expr n)
    | _ => false

/-- The forward rule object built by simple `add`/`delete`. -/
def forwardRule (n : FirecrackerNetwork) : NfRuleObj :=
  { family := nf_family n, table := NFT_TABLE, chain := NFT_FILTER_CHAIN,
    expr := forward_expr n, handle := none }

/-- The masquerade rule object built by simple `add`/`delete`. -/
def masqRule (n : FirecrackerNetwork) : NfRuleObj :=
  { family := nf_family n, table := NFT_TABLE, chain := NFT_POSTROUTING_CHAIN,
    expr := masq_expr n, handle := none }

/-- The batch built by simple `add`: base chains if needed, always the
forward rule, and the masquerade rule only when the scan found none. -/
def simple_add_batch (n : FirecrackerNetwork) (current : Ruleset) :
    List BatchOp :=
  add_base_chains_if_needed n current
  ++ [.add (.ruleObj (forwardRule n))]
  ++ (if masqueradeRuleExists n current then [] else [.add (.ruleObj (masqRule n))])

/-- The handle accumulator of the simple `delete` scan loop. -/
structure RuleHandles where
  forward_rule_handle : Option Nat
  masquerade_rule_handle : Option Nat
deriving DecidableEq

/-- One iteration of the simple `delete` scan loop: rules outside
`NFT_TABLE` are skipped; a forward match overwrites the forward handle, an
(else-if) masquerade match overwrites the masquerade handle. -/
def deleteScanStep (n : FirecrackerNetwork) (acc : RuleHandles) (o : NfObject) :
    RuleHandles :=
  match o with
  | .listObject (.ruleObj rule) =>
      if rule.table = NFT_TABLE then
        if rule.chain = NFT_FILTER_CHAIN ∧ rule.expr = forward_expr n then
          { acc with forward_rule_handle := rule.handle }
        else if rule.chain = NFT_POSTROUTING_CHAIN ∧ rule.expr = masq_expr n then
          { acc with masquerade_rule_handle := rule.handle }
        else acc
      else acc
  | _ => acc

/-- The whole scan loop of simple `delete` over the snapshot, starting from
`None`/`None`. -/
def delete_rule_scan (n : FirecrackerNetwork) (current : Ruleset) : RuleHandles :=
  current.objects.foldl (deleteScanStep n) ⟨none, none⟩

/-- The scan loop of simple `check`: the pair (masquerade exists, forward
exists); note the source tests only chain and expression here, not table. -/
def checkScanStep (n : FirecrackerNetwork) (acc : Bool × Bool) (o : NfObject) :
    Bool × Bool :=
  match o with
  | .listObject (.ruleObj rule) =>
      if rule.chain = NFT_POSTROUTING_CHAIN ∧ rule.expr = masq_expr n then
        (true, acc.2)
      else if rule.chain = NFT_FILTER_CHAIN ∧ rule.expr = forward_expr n then
        (acc.1, true)
      else acc
  | _ => acc

/-- The whole scan loop of simple `check` over the snapshot. -/
def check_rule_scan (n : FirecrackerNetwork) (current : Ruleset) : Bool × Bool :=
  current.objects.foldl (checkScanStep n) (false, false)

/-- Route family tag of a netlink route message. -/
inductive RouteFamily where
  | v4
  | v6
deriving DecidableEq

/-- Route family of an address. -/
def IpAddr.routeFamily : IpAddr → RouteFamily
  | .v4 _ => .v4
  | .v6 _ => .v6

/-- A netlink route message (`RouteMessageBuilder` output): family,
optional destination (address, length) — `none` is the default route — and
gateway. -/
structure RouteMessage where
  family : RouteFamily
  destination : Option (IpAddr × Nat)
  gateway : IpAddr
deriving DecidableEq

/-- Whether the families appearing in a route message disagree with the
message's family. -/
def RouteMessage.familiesMixed (m : RouteMessage) : Bool :=
  (m.gateway.routeFamily != m.family)
  || (match m.destination with
      | some (d, _) => d.routeFamily != m.family
      | none => false)

/-- A link referenced either by index or as a veth pair of names. -/
inductive LinkRef where
  | byIndex (i : Nat)
  | byPair (a b : String)
deriving DecidableEq

/-- One invocation of an external kernel facility, recorded in order. -/
inductive Effect where
  | readLinkIndex (name : String)
  | readRuleset
  | createTap (name : String)
  | linkAddVeth (a b : String)
  | addAddress (linkIndex : Nat) (ip : IpInet)
  | setLinkUp (l : LinkRef)
  | delLink (linkIndex : Nat)
  | moveLinkToNetns (linkIndex : Nat) (netns : String)
  | addRoute (msg : RouteMessage)
  | applyBatch (b : List BatchOp)
deriving DecidableEq

/-- Whether an effect mutates kernel state (everything but the two reads). -/
def Effect.isMutation : Effect → Bool
  | .readLinkIndex _ => false
  | .readRuleset => false
  | _ => true

/-- Whether an effect applies an nftables batch. -/
def Effect.isApplyBatch : Effect → Bool
  | .applyBatch _ => true
  | _ => false

/-- Whether an effect adds a route. -/
def Effect.isAddRoute : Effect → Bool
  | .addRoute _ => true
  | _ => false

/-- Kernel state as the effect vocabulary observes it. -/
structure KernelState where
  links : List String
  ups : List LinkRef
  addresses : List (Nat × IpInet)
  removedLinks : List Nat
  placements : List (Nat × String)
  routes : List RouteMessage
  appliedBatches : List (List BatchOp)
deriving DecidableEq

/-- Apply one effect to a kernel state; reads leave the state unchanged,
every mutation visibly records itself. -/
def Effect.applyTo (e : Effect) (s : KernelState) : KernelState :=
  match e with
  | .readLinkIndex _ => s
  | .readRuleset => s
  | .createTap name => { s with links := name :: s.links }
  | .linkAddVeth a b => { s with links := a :: b :: s.links }
  | .addAddress i ip => { s with addresses := (i, ip) :: s.addresses }
  | .setLinkUp l => { s with ups := l :: s.ups }
  | .delLink i => { s with removedLinks := i :: s.removedLinks }
  | .moveLinkToNetns i ns => { s with placements := (i, ns) :: s.placements }
  | .addRoute m => { s with routes := m :: s.routes }
  | .applyBatch b => { s with appliedBatches := b :: s.appliedBatches }

/-- Apply a trace of effects, in order. -/
def applyEffects (es : List Effect) (s : KernelState) : KernelState :=
  es.foldl (fun s e => e.applyTo s) s

/-- Simple `delete`: resolve and delete the TAP link, fetch the snapshot,
scan for the two handles, fail if either is missing, otherwise apply a
batch deleting both rules by handle. `tapIndex` is the outcome of the link
lookup (`none` on miss, per the spec `ObjectNotFound(Tap)`). -/
def simple_delete (n : FirecrackerNetwork) (tapIndex : Option Nat)
    (current : Ruleset) : Except FirecrackerNetworkError Unit × List Effect :=
  match tapIndex with
  | none => (.error (.objectNotFound .tap), [.readLinkIndex n.tap_name])
  | some idx =>
      let handles := delete_rule_scan n current
      let pre : List Effect := [.readLinkIndex n.tap_name, .delLink idx, .readRuleset]
      match handles.forward_rule_handle, handles.masquerade_rule_handle with
      | none, _ => (.error (.objectNotFound .nfEgressForwardRule), pre)
      | some _, none => (.error (.objectNotFound .nfMasqueradeRule), pre)
      | some fh, some mh =>
          (.ok (), pre ++
            [.applyBatch
              [ .delete (.ruleObj { forwardRule n with handle := some fh })
              , .delete (.ruleObj { masqRule n with handle := some mh }) ]])

/-- Simple `check`: resolve the TAP link, fetch the snapshot, verify the
base chains and that both rules exist; reads only. `tapFound` is the
outcome of the link lookup. -/
def simple_check (n : FirecrackerNetwork) (tapFound : Bool) (current : Ruleset) :
    Except FirecrackerNetworkError Unit × List Effect :=
  if tapFound then
    let res :=
      match check_base_chains n current with
      | .error e => .error e
      | .ok _ =>
          let scan := check_rule_scan n current
          if ¬ scan.1 then
            Except.error (FirecrackerNetworkError.objectNotFound .nfMasqueradeRule)
          else if ¬ scan.2 then
            Except.error (FirecrackerNetworkError.objectNotFound .nfEgressForwardRule)
          else Except.ok ()
    (res, [.readLinkIndex n.tap_name, .readRuleset])
  else
    (.error (.objectNotFound .tap), [.readLinkIndex n.tap_name])

/-- The namespaced extension data (`NamespacedData`), restricted to the
fields the embedded code reads. -/
structure NamespacedData where
  netns_name : String
  veth1_name : String
  veth2_name : String
  veth1_ip : IpInet
  veth2_ip : IpInet
  forwarded_guest_ip : Option IpAddr
deriving DecidableEq

/-- Modelled from the spec: `inner_snat_expr` (in namespaced/mod.rs,
outside the sources in scope) SNATs packets with `saddr = guest_ip`
leaving `veth2_name` to the source address `veth2_ip`. -/
def inner_snat_expr (veth2_name : String) (guest_ip : IpInet) (veth2_ip : IpInet)
    (fam : NfFamily) : List Statement :=
  [ .stmtMatch (.payloadField (if fam = .ip6 then "ip6" else "ip") "saddr")
      (.str guest_ip.address.text) .eq
  , .stmtMatch (.meta .oifname) (.str veth2_name) .eq
  , .snat veth2_ip.address.text ]

/-- Modelled from the spec: `inner_dnat_expr` (in namespaced/mod.rs,
outside the sources in scope) DNATs packets entering `veth2_name` destined
to `forwarded_guest_ip` to `guest_ip`. -/
def inner_dnat_expr (veth2_name : String) (forwarded_guest_ip : IpAddr)
    (guest_ip : IpInet) (fam : NfFamily) : List Statement :=
  [ .stmtMatch (.payloadField (if fam = .ip6 then "ip6" else "ip") "daddr")
      (.str forwarded_guest_ip.text) .eq
  , .stmtMatch (.meta .iifname) (.str veth2_name) .eq
  , .dnat guest_ip.address.text ]

/-- Modelled from the spec: `outer_masq_expr` (in namespaced/mod.rs,
outside the sources in scope) masquerades traffic from the veth subnet
towards `iface_name`. -/
def outer_masq_expr (n : FirecrackerNetwork) (nd : NamespacedData) :
    List Statement :=
  [ .stmtMatch (.payloadField (nat_proto_from_addr nd.veth2_ip.address) "saddr")
      (.str nd.veth2_ip.address.text) .eq
  , .stmtMatch (.meta .oifname) (.str n.iface_name) .eq
  , .masquerade ]

/-- Modelled from the spec: `outer_ingress_forward_expr` (in
namespaced/mod.rs, outside the sources in scope) forwards ingress traffic
from `iface_name` to `veth1_name`. -/
def outer_ingress_forward_expr (n : FirecrackerNetwork) (nd : NamespacedData) :
    List Statement :=
  [ .stmtMatch (.meta .iifname) (.str n.iface_name) .eq
  , .stmtMatch (.meta .oifname) (.str nd.veth1_name) .eq
  , .accept ]

/-- Modelled from the spec: `outer_egress_forward_expr` (in
namespaced/mod.rs, outside the sources in scope) forwards egress traffic
from `veth1_name` to `iface_name`. -/
def outer_egress_forward_expr (n : FirecrackerNetwork) (nd : NamespacedData) :
    List Statement :=
  [ .stmtMatch (.meta .iifname) (.str nd.veth1_name) .eq
  , .stmtMatch (.meta .oifname) (.str n.iface_name) .eq
  , .accept ]

/-- Effects of `setup_outer_interfaces`: create the veth pair, look up
veth1, address it, bring the pair up, look up veth2 and move it into the
namespace. `idx` gives the index a link-name lookup returns. -/
def setup_outer_interfaces_effects (nd : NamespacedData) (idx : String → Nat) :
    List Effect :=
  [ .linkAddVeth nd.veth1_name nd.veth2_name
  , .readLinkIndex nd.veth1_name
  , .addAddress (idx nd.veth1_name) nd.veth1_ip
  , .setLinkUp (.byPair nd.veth1_name nd.veth2_name)
  , .readLinkIndex nd.veth2_name
  , .moveLinkToNetns (idx nd.veth2_name) nd.netns_name ]

/-- The default-route message built by `setup_inner_interfaces`: the route
family and gateway both come from `veth1_ip` alone; the destination is
left unspecified. -/
def inner_default_route (veth1_ip : IpInet) : RouteMessage :=
  match veth1_ip.address with
  | .v4 a => { family := .v4, destination := none, gateway := .v4 a }
  | .v6 a => { family := .v6, destination := none, gateway := .v6 a }

/-- Effects of `setup_inner_interfaces`: create the TAP, look up veth2,
address it and bring it up, add the default route via `veth1_ip`, look up
the TAP, address it and bring it up. -/
def setup_inner_interfaces_effects (tap_name : String) (tap_ip : IpInet)
    (veth2_name : String) (veth2_ip : IpInet) (veth1_ip : IpInet)
    (idx : String → Nat) : List Effect :=
  [ .createTap tap_name
  , .readLinkIndex veth2_name
  , .addAddress (idx veth2_name) veth2_ip
  , .setLinkUp (.byIndex (idx veth2_name))
  , .addRoute (inner_default_route veth1_ip)
  , .readLinkIndex tap_name
  , .addAddress (idx tap_name) tap_ip
  , .setLinkUp (.byIndex (idx tap_name)) ]

/-- The inner postrouting chain object built by `setup_inner_nf_rules`:
type NAT, hook postrouting, priority 100, policy accept. -/
def innerPostroutingChain (fam : NfFamily) : NfChainObj :=
  { family := fam, table := NFT_TABLE, name := NFT_POSTROUTING_CHAIN,
    ctype := some .nat, hook := some .postrouting, prio := some 100,
    policy := some .accept }

/-- The inner prerouting chain object built by `setup_inner_nf_rules`:
type NAT, hook prerouting, priority −100, policy accept. -/
def innerPreroutingChain (fam : NfFamily) : NfChainObj :=
  { family := fam, table := NFT_TABLE, name := NFT_PREROUTING_CHAIN,
    ctype := some .nat, hook := some .prerouting, prio := some (-100),
    policy := some .accept }

/-- The SNAT rule object built by `setup_inner_nf_rules`. -/
def innerSnatRule (fam : NfFamily) (veth2_name : String) (veth2_ip : IpInet)
    (guest_ip : IpInet) : NfRuleObj :=
  { family := fam, table := NFT_TABLE, chain := NFT_POSTROUTING_CHAIN,
    expr := inner_snat_expr veth2_name guest_ip veth2_ip fam, handle := none }

/-- The DNAT rule object built by `setup_inner_nf_rules`. -/
def innerDnatRule (fam : NfFamily) (veth2_name : String) (f : IpAddr)
    (guest_ip : IpInet) : NfRuleObj :=
  { family := fam, table := NFT_TABLE, chain := NFT_PREROUTING_CHAIN,
    expr := inner_dnat_expr veth2_name f guest_ip fam, handle := none }

/-- The batch built by `setup_inner_nf_rules`: the table; the postrouting
chain; the prerouting chain only under `forwarded_guest_ip`; the SNAT
rule; the DNAT rule only under `forwarded_guest_ip`. -/
def inner_nf_batch (fam : NfFamily) (veth2_name : String) (veth2_ip : IpInet)
    (forwarded_guest_ip : Option IpAddr) (guest_ip : IpInet) : List BatchOp :=
  [ .add (.tableObj { family := fam, name := NFT_TABLE, handle := none })
  , .add (.chainObj (innerPostroutingChain fam)) ]
  ++ (match forwarded_guest_ip with
      | some _ => [.add (.chainObj (innerPreroutingChain fam))]
      | none => [])
  ++ [ .add (.ruleObj (innerSnatRule fam veth2_name veth2_ip guest_ip)) ]
  ++ (match forwarded_guest_ip with
      | some f => [.add (.ruleObj (innerDnatRule fam veth2_name f guest_ip))]
      | none => [])

/-- The outer masquerade rule object built by `setup_outer_nf_rules`. -/
def outerMasqRule (nd : NamespacedData) (n : FirecrackerNetwork) : NfRuleObj :=
  { family := nf_family n, table := NFT_TABLE, chain := NFT_POSTROUTING_CHAIN,
    expr := outer_masq_expr n nd, handle := none }

/-- The outer ingress-forward rule object built by `setup_outer_nf_rules`. -/
def outerIngressRule (nd : NamespacedData) (n : FirecrackerNetwork) : NfRuleObj :=
  { family := nf_family n, table := NFT_TABLE, chain := NFT_FILTER_CHAIN,
    expr := outer_ingress_forward_expr n nd, handle := none }

/-- The outer egress-forward rule object built by `setup_outer_nf_rules`. -/
def outerEgressRule (nd : NamespacedData) (n : FirecrackerNetwork) : NfRuleObj :=
  { family := nf_family n, table := NFT_TABLE, chain := NFT_FILTER_CHAIN,
    expr := outer_egress_forward_expr n nd, handle := none }

/-- The batch built by `setup_outer_nf_rules`: base chains if needed, then
the outer masquerade, ingress-forward and egress-forward rules. -/
def outer_nf_batch (nd : NamespacedData) (n : FirecrackerNetwork)
    (current : Ruleset) : List BatchOp :=
  add_base_chains_if_needed n current
  ++ [ .add (.ruleObj (outerMasqRule nd n))
     , .add (.ruleObj (outerIngressRule nd n))
     , .add (.ruleObj (outerEgressRule nd n)) ]

/-- The outer host-route step (`setup_outer_forward_route`): no route when
`forwarded_guest_ip` is unset; otherwise a /32 (IPv4) or /128 (IPv6) route
to the forwarded address with gateway `veth2_ip.address`, or
`ForbiddenDualStackInRoute` when the two families differ — detected while
building the message, before any route is installed. -/
def outer_forward_route (nd : NamespacedData) :
    Except FirecrackerNetworkError (Option RouteMessage) :=
  match nd.forwarded_guest_ip with
  | none => .ok none
  | some (.v4 a) =>
      match nd.veth2_ip.address with
      | .v4 g => .ok (some ⟨.v4, some (.v4 a, 32), .v4 g⟩)
      | .v6 _ => .error .forbiddenDualStackInRoute
  | some (.v6 a) =>
      match nd.veth2_ip.address with
      | .v4 _ => .error .forbiddenDualStackInRoute
      | .v6 g => .ok (some ⟨.v6, some (.v6 a, 128), .v6 g⟩)

/-- Namespaced `add` under succeeding external facilities: outer
interfaces, inner interfaces, inner nftables batch, outer nftables batch,
then the outer host route; the dual-stack error surfaces only at that last
step, after all earlier effects. -/
def namespaced_add (nd : NamespacedData) (n : FirecrackerNetwork)
    (idx : String → Nat) (current_outer : Ruleset) :
    Except FirecrackerNetworkError Unit × List Effect :=
  let base : List Effect :=
    setup_outer_interfaces_effects nd idx
    ++ setup_inner_interfaces_effects n.tap_name n.tap_ip nd.veth2_name
        nd.veth2_ip nd.veth1_ip idx
    ++ [ .applyBatch (inner_nf_batch (nf_family n) nd.veth2_name nd.veth2_ip
          nd.forwarded_guest_ip n.guest_ip) ]
    ++ [ .readRuleset, .applyBatch (outer_nf_batch nd n current_outer) ]
  match outer_forward_route nd with
  | .error e => (.error e, base)
  | .ok none => (.ok (), base)
  | .ok (some msg) => (.ok (), base ++ [.addRoute msg])

/-- Identity of the simple forward rule: table, chain and full expression
list all equal. -/
def isForwardMatch (n : FirecrackerNetwork) (r : NfRuleObj) : Bool :=
  decide (r.table = NFT_TABLE ∧ r.chain = NFT_FILTER_CHAIN ∧ r.expr = forward_expr n)

/-- Identity of the simple masquerade rule: table, chain and full
expression list all equal. -/
def isMasqMatch (n : FirecrackerNetwork) (r : NfRuleObj) : Bool :=
  decide (r.table = NFT_TABLE ∧ r.chain = NFT_POSTROUTING_CHAIN ∧ r.expr = masq_expr n)

/-- The masquerade identity the `check` scan actually tests: chain and
expression only, no table. -/
def isCheckMasqMatch (n : FirecrackerNetwork) (r : NfRuleObj) : Bool :=
  decide (r.chain = NFT_POSTROUTING_CHAIN ∧ r.expr = masq_expr n)

/-- The forward identity the `check` scan actually tests: chain and
expression only, no table. -/
def isCheckFwdMatch (n : FirecrackerNetwork) (r : NfRuleObj) : Bool :=
  decide (r.chain = NFT_FILTER_CHAIN ∧ r.expr = forward_expr n)

/-- The last rule object of the list satisfying the predicate, if any. -/
def lastMatch (p : NfRuleObj → Bool) : List NfObject → Option NfRuleObj
  | [] => none
  | o :: rest =>
      match lastMatch p rest with
      | some r => some r
      | none =>
          match o with
          | .listObject (.ruleObj r) => if p r then some r else none
          | _ => none

lemma rulesOfList_cons (o : NfObject) (rest : List NfObject) :
    rulesOfList (o :: rest) =
      (match o with
       | .listObject (.ruleObj r) => [r]
       | _ => []) ++ rulesOfList rest := by
  cases o with
  | cmdObject => rfl
  | listObject lo => cases lo <;> rfl

lemma filter_ne_post : ¬ (NFT_FILTER_CHAIN = NFT_POSTROUTING_CHAIN) := by decide

lemma post_ne_filter : ¬ (NFT_POSTROUTING_CHAIN = NFT_FILTER_CHAIN) := by decide

lemma pre_ne_post : ¬ (NFT_PREROUTING_CHAIN = NFT_POSTROUTING_CHAIN) := by decide

lemma foldl_deleteScan_fwd (n : FirecrackerNetwork) (objs : List NfObject)
    (acc : RuleHandles) :
    (objs.foldl (deleteScanStep n) acc).forward_rule_handle =
      match lastMatch (isForwardMatch n) objs with
      | some r => r.handle
      | none => acc.forward_rule_handle := by
  induction objs generalizing acc with
  | nil => rfl
  | cons o rest ih =>
      rw [List.foldl_cons, ih]
      cases hrest : lastMatch (isForwardMatch n) rest with
      | some r => simp [lastMatch, hrest]
      | none =>
          simp only [lastMatch, hrest]
          cases o with
          | cmdObject => rfl
          | listObject lo =>
              cases lo with
              | tableObj t => rfl
              | chainObj c => rfl
              | ruleObj r =>
                  by_cases ht : r.table = NFT_TABLE
                  · by_cases hc : r.chain = NFT_FILTER_CHAIN ∧ r.expr = forward_expr n
                    · simp [deleteScanStep, ht, hc, isForwardMatch]
                    · by_cases hm : r.chain = NFT_POSTROUTING_CHAIN ∧ r.expr = masq_expr n
                      · simp [deleteScanStep, ht, hc, hm, isForwardMatch, post_ne_filter]
                      · simp [deleteScanStep, ht, hc, hm, isForwardMatch]
                  · simp [deleteScanStep, ht, isForwardMatch]

lemma foldl_deleteScan_masq (n : FirecrackerNetwork) (objs : List NfObject)
    (acc : RuleHandles) :
    (objs.foldl (deleteScanStep n) acc).masquerade_rule_handle =
      match lastMatch (isMasqMatch n) objs with
      | some r => r.handle
      | none => acc.masquerade_rule_handle := by
  induction objs generalizing acc with
  | nil => rfl
  | cons o rest ih =>
      rw [List.foldl_cons, ih]
      cases hrest : lastMatch (isMasqMatch n) rest with
      | some r => simp [lastMatch, hrest]
      | none =>
          simp only [lastMatch, hrest]
          cases o with
          | cmdObject => rfl
          | listObject lo =>
              cases lo with
              | tableObj t => rfl
              | chainObj c => rfl
              | ruleObj r =>
                  by_cases ht : r.table = NFT_TABLE
                  · by_cases hc : r.chain = NFT_FILTER_CHAIN ∧ r.expr = forward_expr n
                    · simp [deleteScanStep, ht, hc, isMasqMatch, filter_ne_post]
                    · by_cases hm : r.chain = NFT_POSTROUTING_CHAIN ∧ r.expr = masq_expr n
                      · simp [deleteScanStep, ht, hc, hm, isMasqMatch, post_ne_filter]
                      · simp [deleteScanStep, ht, hc, hm, isMasqMatch]
                  · simp [deleteScanStep, ht, isMasqMatch]

/-- The delete scan computes, for the forward rule, the handle of the LAST
rule of the snapshot matching its identity. -/
lemma delete_rule_scan_fwd (n : FirecrackerNetwork) (rs : Ruleset) :
    (delete_rule_scan n rs).forward_rule_handle =
      (lastMatch (isForwardMatch n) rs.objects).bind NfRuleObj.handle := by
  unfold delete_rule_scan
  rw [foldl_deleteScan_fwd]
  cases lastMatch (isForwardMatch n) rs.objects <;> rfl

/-- The delete scan computes, for the masquerade rule, the handle of the
LAST rule of the snapshot matching its identity. -/
lemma delete_rule_scan_masq (n : FirecrackerNetwork) (rs : Ruleset) :
    (delete_rule_scan n rs).masquerade_rule_handle =
      (lastMatch (isMasqMatch n) rs.objects).bind NfRuleObj.handle := by
  unfold delete_rule_scan
  rw [foldl_deleteScan_masq]
  cases lastMatch (isMasqMatch n) rs.objects <;> rfl

lemma lastMatch_some (p : NfRuleObj → Bool) :
    ∀ (objs : List NfObject) (r : NfRuleObj), lastMatch p objs = some r →
      r ∈ rulesOfList objs ∧ p r = true := by
  intro objs
  induction objs with
  | nil => intro r h; simp [lastMatch] at h
  | cons o rest ih =>
      intro r h
      cases hrest : lastMatch p rest with
      | some r' =>
          have heq : lastMatch p (o :: rest) = some r' := by
            simp [lastMatch, hrest]
          rw [heq] at h
          cases h
          obtain ⟨hm, hp⟩ := ih _ hrest
          exact ⟨by rw [rulesOfList_cons]; exact List.mem_append_right _ hm, hp⟩
      | none =>
          cases o with
          | cmdObject =>
              have heq : lastMatch p (.cmdObject :: rest) = none := by
                simp [lastMatch, hrest]
              rw [heq] at h
              exact absurd h (by simp)
          | listObject lo =>
              cases lo with
              | tableObj t =>
                  have heq : lastMatch p (.listObject (.tableObj t) :: rest) = none := by
                    simp [lastMatch, hrest]
                  rw [heq] at h
                  exact absurd h (by simp)
              | chainObj c =>
                  have heq : lastMatch p (.listObject (.chainObj c) :: rest) = none := by
                    simp [lastMatch, hrest]
                  rw [heq] at h
                  exact absurd h (by simp)
              | ruleObj r' =>
                  cases hp : p r' with
                  | true =>
                      have heq : lastMatch p (.listObject (.ruleObj r') :: rest) = some r' := by
                        simp [lastMatch, hrest, hp]
                      rw [heq] at h
                      cases h
                      exact ⟨by rw [rulesOfList_cons]; exact List.mem_append_left _ (by simp), hp⟩
                  | false =>
                      have heq : lastMatch p (.listObject (.ruleObj r') :: rest) = none := by
                        simp [lastMatch, hrest, hp]
                      rw [heq] at h
                      exact absurd h (by simp)

lemma lastMatch_ne_none_of_mem (p : NfRuleObj → Bool) :
    ∀ (objs : List NfObject) (r : NfRuleObj), r ∈ rulesOfList objs → p r = true →
      lastMatch p objs ≠ none := by
  intro objs
  induction objs with
  | nil => intro r hr _; simp [rulesOfList] at hr
  | cons o rest ih =>
      intro r hr hp
      cases hrest : lastMatch p rest with
      | some r' => simp [lastMatch, hrest]
      | none =>
          rw [rulesOfList_cons, List.mem_append] at hr
          cases hr with
          | inr hmem => exact absurd hrest (ih r hmem hp)
          | inl hhead =>
              cases o with
              | cmdObject => simp at hhead
              | listObject lo =>
                  cases lo with
                  | tableObj t => simp at hhead
                  | chainObj c => simp at hhead
                  | ruleObj r' =>
                      simp only [List.mem_singleton] at hhead
                      subst hhead
                      simp [lastMatch, hrest, hp]

lemma foldl_checkScan (n : FirecrackerNetwork) (objs : List NfObject)
    (acc : Bool × Bool) :
    objs.foldl (checkScanStep n) acc =
      (acc.1 || (rulesOfList objs).any (isCheckMasqMatch n),
       acc.2 || (rulesOfList objs).any (isCheckFwdMatch n)) := by
  induction objs generalizing acc with
  | nil => simp [rulesOfList]
  | cons o rest ih =>
      rw [List.foldl_cons, ih]
      cases o with
      | cmdObject => simp [checkScanStep, rulesOfList_cons]
      | listObject lo =>
          cases lo with
          | tableObj t => simp [checkScanStep, rulesOfList_cons]
          | chainObj c => simp [checkScanStep, rulesOfList_cons]
          | ruleObj r =>
              by_cases hm : r.chain = NFT_POSTROUTING_CHAIN ∧ r.expr = masq_expr n
              · simp [checkScanStep, hm, rulesOfList_cons, isCheckMasqMatch,
                  isCheckFwdMatch, post_ne_filter, Bool.or_assoc]
              · by_cases hf : r.chain = NFT_FILTER_CHAIN ∧ r.expr = forward_expr n
                · simp [checkScanStep, hm, hf, rulesOfList_cons, isCheckMasqMatch,
                    isCheckFwdMatch, filter_ne_post, Bool.or_assoc]
                · simp [checkScanStep, hm, hf, rulesOfList_cons, isCheckMasqMatch,
                    isCheckFwdMatch]

/-- The check scan tests the chain-and-expression-only identities over the
snapshot's rule objects. -/
lemma check_rule_scan_eq (n : FirecrackerNetwork) (rs : Ruleset) :
    check_rule_scan n rs =
      ((rulesOf rs).any (isCheckMasqMatch n), (rulesOf rs).any (isCheckFwdMatch n)) := by
  unfold check_rule_scan rulesOf
  rw [foldl_checkScan]
  simp

/-- Whether a ruleset entry is either not a rule or a rule of `NFT_TABLE`. -/
def inNftTable : NfObject → Bool
  | .listObject (.ruleObj r) => r.table == NFT_TABLE
  | _ => true

lemma deleteScanStep_foreign (n : FirecrackerNetwork) (acc : RuleHandles)
    (o : NfObject) (h : inNftTable o = false) : deleteScanStep n acc o = acc := by
  cases o with
  | cmdObject => simp [inNftTable] at h
  | listObject lo =>
      cases lo with
      | tableObj t => simp [inNftTable] at h
      | chainObj c => simp [inNftTable] at h
      | ruleObj r =>
          have ht : ¬ (r.table = NFT_TABLE) := by
            simpa [inNftTable] using h
          simp [deleteScanStep, ht]

lemma foldl_filter_deleteScan (n : FirecrackerNetwork) (objs : List NfObject)
    (acc : RuleHandles) :
    (objs.filter inNftTable).foldl (deleteScanStep n) acc =
      objs.foldl (deleteScanStep n) acc := by
  induction objs generalizing acc with
  | nil => rfl
  | cons o rest ih =>
      cases h : inNftTable o with
      | true => rw [List.filter_cons_of_pos h, List.foldl_cons, List.foldl_cons, ih]
      | false =>
          rw [List.filter_cons_of_neg (by simp [h]), List.foldl_cons,
            deleteScanStep_foreign n acc o h, ih]

lemma masqueradeRuleExists_eq (n : FirecrackerNetwork) (rs : Ruleset) :
    masqueradeRuleExists n rs = (rulesOf rs).any (isMasqMatch n) := by
  unfold masqueradeRuleExists rulesOf
  induction rs.objects with
  | nil => rfl
  | cons o rest ih =>
      rw [rulesOfList_cons]
      cases o with
      | cmdObject => simpa using ih
      | listObject lo =>
          cases lo with
          | tableObj t => simpa using ih
          | chainObj c => simpa using ih
          | ruleObj r =>
              simp only [List.any_cons, List.singleton_append, ih]
              congr 1
              rw [isMasqMatch, decide_eq_decide]
              constructor
              · rintro ⟨h1, h2, h3⟩; exact ⟨h2, h1, h3⟩
              · rintro ⟨h1, h2, h3⟩; exact ⟨h2, h1, h3⟩

lemma rule_not_mem_base (n : FirecrackerNetwork) (current : Ruleset)
    (r : NfRuleObj) :
    BatchOp.add (.ruleObj r) ∉ add_base_chains_if_needed n current := by
  unfold add_base_chains_if_needed
  split_ifs <;> simp

/-- The scenario S1 network: iface `eth0`, TAP `tap0` at 172.16.0.1/30,
guest at 172.16.0.2/30. -/
def exampleNetwork : FirecrackerNetwork :=
  { iface_name := "eth0", tap_name := "tap0",
    tap_ip := ⟨.v4 "172.16.0.1", 30⟩, guest_ip := ⟨.v4 "172.16.0.2", 30⟩ }

/-- A rule with the forward identity carrying a given kernel handle. -/
def fwdRuleWith (n : FirecrackerNetwork) (h : Option Nat) : NfRuleObj :=
  { forwardRule n with handle := h }

/-- A snapshot holding two rules of identical forward identity, with
kernel handles 1 and 2. -/
def dupRuleset : Ruleset :=
  ⟨[ .listObject (.ruleObj (fwdRuleWith exampleNetwork (some 1)))
   , .listObject (.ruleObj (fwdRuleWith exampleNetwork (some 2))) ]⟩

/-- Claim C1 counterexample: on a snapshot with two rules of the same
identity and handles 1 and 2, the Delete lookup yields handle 2 — the
LAST match — not handle 1 of the first match as the claim states. -/
theorem claim_C1_cex :
    (rulesOf dupRuleset).all (isForwardMatch exampleNetwork) = true ∧
    (rulesOf dupRuleset).head?.map NfRuleObj.handle = some (some 1) ∧
    (delete_rule_scan exampleNetwork dupRuleset).forward_rule_handle = some 2 ∧
    ¬ (delete_rule_scan exampleNetwork dupRuleset).forward_rule_handle = some 1 := by
  refine ⟨by decide, by decide, by decide, by decide⟩

/-- Claim C1 (amended): the handle obtained by the Delete lookup, for the
forward and the masquerade rule alike, is that of the LAST rule of the
snapshot whose table, chain and expression list match; when several rules
share the same expression, the last one wins. -/
theorem claim_C1_amended (n : FirecrackerNetwork) (rs : Ruleset) :
    (delete_rule_scan n rs).forward_rule_handle =
      (lastMatch (isForwardMatch n) rs.objects).bind NfRuleObj.handle ∧
    (delete_rule_scan n rs).masquerade_rule_handle =
      (lastMatch (isMasqMatch n) rs.objects).bind NfRuleObj.handle :=
  ⟨delete_rule_scan_fwd n rs, delete_rule_scan_masq n rs⟩

/-- Claim C3: in simple Add, for every snapshot, the applied batch always
contains the forward rule, and contains the masquerade rule if and only if
the snapshot held no rule in `NFT_POSTROUTING_CHAIN` of `NFT_TABLE` whose
expression equals `masq_expr`. -/
theorem claim_C3 (n : FirecrackerNetwork) (current : Ruleset) :
    BatchOp.add (.ruleObj (forwardRule n)) ∈ simple_add_batch n current ∧
    (BatchOp.add (.ruleObj (masqRule n)) ∈ simple_add_batch n current ↔
      (rulesOf current).any (isMasqMatch n) = false) := by
  constructor
  · unfold simple_add_batch
    simp [List.mem_append]
  · unfold simple_add_batch
    rw [← masqueradeRuleExists_eq]
    cases hex : masqueradeRuleExists n current with
    | true =>
        simp only [hex]
        constructor
        · intro hmem
          exfalso
          rcases List.mem_append.mp hmem with h1 | h2
          · rcases List.mem_append.mp h1 with hb | hf
            · exact rule_not_mem_base n current _ hb
            · simp [forwardRule, masqRule, post_ne_filter] at hf
          · simp at h2
        · intro h
          cases h
    | false =>
        simp only [hex]
        constructor
        · intro _
          trivial
        · intro _
          refine List.mem_append.mpr (Or.inr ?_)
          simp

/-- The masquerade-identity rule of the S1 network, placed in a table that
is not `NFT_TABLE`. -/
def foreignMasqRule : NfRuleObj :=
  { masqRule exampleNetwork with table := "mytable" }

/-- The forward-identity rule of the S1 network, placed in a table that is
not `NFT_TABLE`. -/
def foreignFwdRule : NfRuleObj :=
  { forwardRule exampleNetwork with table := "mytable" }

/-- A snapshot whose base table and chains live in `NFT_TABLE` but whose
only rules sit in a different table. -/
def foreignTableRuleset : Ruleset :=
  ⟨[ .listObject (.tableObj ⟨.ip, NFT_TABLE, none⟩)
   , .listObject (.chainObj (basePostroutingChain .ip))
   , .listObject (.chainObj (baseFilterChain .ip))
   , .listObject (.ruleObj foreignMasqRule)
   , .listObject (.ruleObj foreignFwdRule) ]⟩

/-- Claim C5 counterexample: on a snapshot whose only rules reside in a
table other than `NFT_TABLE` (with chain names and expressions matching),
simple Check accepts them and succeeds — so its existence test does NOT
require table equality, contrary to the claim. -/
theorem claim_C5_cex :
    (simple_check exampleNetwork true foreignTableRuleset).1 = .ok () ∧
    (rulesOf foreignTableRuleset).all (fun r => r.table != NFT_TABLE) = true := by
  refine ⟨rfl, by decide⟩

/-- Claim C5 (amended): the Delete handle lookup identifies rules by table
AND chain AND expression — rules outside `NFT_TABLE` are ignored by it —
but the Check existence test identifies rules by chain and expression
ONLY, accepting a rule from any table. -/
theorem claim_C5_amended (n : FirecrackerNetwork) (rs : Ruleset) :
    delete_rule_scan n ⟨rs.objects.filter inNftTable⟩ = delete_rule_scan n rs ∧
    (check_rule_scan n rs).1 = (rulesOf rs).any (isCheckMasqMatch n) ∧
    (check_rule_scan n rs).2 = (rulesOf rs).any (isCheckFwdMatch n) := by
  refine ⟨?_, ?_, ?_⟩
  · unfold delete_rule_scan
    exact foldl_filter_deleteScan n rs.objects ⟨none, none⟩
  · rw [check_rule_scan_eq]
  · rw [check_rule_scan_eq]

/-- Claim C9: simple Delete first resolves and deletes the TAP link, then
reads the ruleset; when the forward rule's handle is not found it fails
with `ObjectNotFound(NfEgressForwardRule)`, and when the masquerade
rule's handle is not found it fails with `ObjectNotFound(NfMasqueradeRule)`,
in both cases with exactly the three effects above and no batch applied. -/
theorem claim_C9 (n : FirecrackerNetwork) (idx : Nat) (current : Ruleset) :
    match (lastMatch (isForwardMatch n) current.objects).bind NfRuleObj.handle,
          (lastMatch (isMasqMatch n) current.objects).bind NfRuleObj.handle with
    | none, _ =>
        simple_delete n (some idx) current =
          (.error (.objectNotFound .nfEgressForwardRule),
           [.readLinkIndex n.tap_name, .delLink idx, .readRuleset])
    | some _, none =>
        simple_delete n (some idx) current =
          (.error (.objectNotFound .nfMasqueradeRule),
           [.readLinkIndex n.tap_name, .delLink idx, .readRuleset])
    | some _, some _ => True := by
  have hf := delete_rule_scan_fwd n current
  have hm := delete_rule_scan_masq n current
  cases h1 : (lastMatch (isForwardMatch n) current.objects).bind NfRuleObj.handle with
  | none =>
      cases h2 : (lastMatch (isMasqMatch n) current.objects).bind NfRuleObj.handle with
      | none => simp [simple_delete, hf, hm, h1, h2]
      | some mh => simp [simple_delete, hf, hm, h1, h2]
  | some fh =>
      cases h2 : (lastMatch (isMasqMatch n) current.objects).bind NfRuleObj.handle with
      | none => simp [simple_delete, hf, hm, h1, h2]
      | some mh => trivial

/-- Claim C10: a rule of the snapshot whose table, chain and expression
match the sought rule but whose kernel handle is absent is treated exactly
like a missing rule, with the corresponding error — for the forward
identity Delete fails with `ObjectNotFound(NfEgressForwardRule)`, and,
when the forward handle resolves, for the masquerade identity it fails
with `ObjectNotFound(NfMasqueradeRule)` — in both cases applying no
delete batch. -/
theorem claim_C10 (n : FirecrackerNetwork) (idx : Nat) (rs : Ruleset) :
    ((∃ r ∈ rulesOf rs, isForwardMatch n r = true) →
     (∀ r ∈ rulesOf rs, isForwardMatch n r = true → r.handle = none) →
     (simple_delete n (some idx) rs).1 =
        .error (.objectNotFound .nfEgressForwardRule) ∧
     (simple_delete n (some idx) rs).2.all (fun e => !e.isApplyBatch) = true) ∧
    ((delete_rule_scan n rs).forward_rule_handle.isSome = true →
     (∃ r ∈ rulesOf rs, isMasqMatch n r = true) →
     (∀ r ∈ rulesOf rs, isMasqMatch n r = true → r.handle = none) →
     (simple_delete n (some idx) rs).1 =
        .error (.objectNotFound .nfMasqueradeRule) ∧
     (simple_delete n (some idx) rs).2.all (fun e => !e.isApplyBatch) = true) := by
  constructor
  · intro hmem hnone
    obtain ⟨r0, hr0, hp0⟩ := hmem
    have hne := lastMatch_ne_none_of_mem (isForwardMatch n) rs.objects r0 hr0 hp0
    cases hl : lastMatch (isForwardMatch n) rs.objects with
    | none => exact absurd hl hne
    | some r1 =>
        obtain ⟨hm1, hp1⟩ := lastMatch_some (isForwardMatch n) rs.objects r1 hl
        have hh1 : r1.handle = none := hnone r1 hm1 hp1
        have hfn : (delete_rule_scan n rs).forward_rule_handle = none := by
          rw [delete_rule_scan_fwd, hl]
          simpa using hh1
        constructor
        · simp [simple_delete, hfn]
        · simp [simple_delete, hfn, Effect.isApplyBatch]
  · intro hfound hmem hnone
    obtain ⟨fh, hfh⟩ := Option.isSome_iff_exists.mp hfound
    obtain ⟨r0, hr0, hp0⟩ := hmem
    have hne := lastMatch_ne_none_of_mem (isMasqMatch n) rs.objects r0 hr0 hp0
    cases hl : lastMatch (isMasqMatch n) rs.objects with
    | none => exact absurd hl hne
    | some r1 =>
        obtain ⟨hm1, hp1⟩ := lastMatch_some (isMasqMatch n) rs.objects r1 hl
        have hh1 : r1.handle = none := hnone r1 hm1 hp1
        have hmn : (delete_rule_scan n rs).masquerade_rule_handle = none := by
          rw [delete_rule_scan_masq, hl]
          simpa using hh1
        constructor
        · simp [simple_delete, hfh, hmn]
        · simp [simple_delete, hfh, hmn, Effect.isApplyBatch]

/-- A snapshot holding exactly one forward-identity rule with no kernel
handle. -/
def handleLessRuleset : Ruleset :=
  ⟨[ .listObject (.ruleObj (fwdRuleWith exampleNetwork none)) ]⟩

/-- A rule with the masquerade identity carrying a given kernel handle. -/
def masqRuleWith (n : FirecrackerNetwork) (h : Option Nat) : NfRuleObj :=
  { masqRule n with handle := h }

/-- A snapshot whose forward-identity rule has a kernel handle but whose
masquerade-identity rule has none. -/
def masqHandleLessRuleset : Ruleset :=
  ⟨[ .listObject (.ruleObj (fwdRuleWith exampleNetwork (some 3)))
   , .listObject (.ruleObj (masqRuleWith exampleNetwork none)) ]⟩

/-- Claim C10 witness: over a snapshot with one matching but handle-less
forward rule, Delete fails with `ObjectNotFound(NfEgressForwardRule)`; over
a snapshot whose forward rule resolves to handle 3 but whose masquerade
rule is handle-less, Delete fails with `ObjectNotFound(NfMasqueradeRule)`;
neither run applies a batch. -/
theorem claim_C10_witness :
    ((simple_delete exampleNetwork (some 7) handleLessRuleset).1 =
        .error (.objectNotFound .nfEgressForwardRule) ∧
      (simple_delete exampleNetwork (some 7) handleLessRuleset).2.all
        (fun e => !e.isApplyBatch) = true) ∧
    ((simple_delete exampleNetwork (some 7) masqHandleLessRuleset).1 =
        .error (.objectNotFound .nfMasqueradeRule) ∧
      (simple_delete exampleNetwork (some 7) masqHandleLessRuleset).2.all
        (fun e => !e.isApplyBatch) = true) :=
  ⟨(claim_C10 exampleNetwork 7 handleLessRuleset).1 (by decide) (by decide),
   (claim_C10 exampleNetwork 7 masqHandleLessRuleset).2
     (by decide) (by decide) (by decide)⟩

/-- Claim C4: simple Check performs only read effects (link-index lookup
and ruleset listing); applying its effect trace to any kernel state leaves
the state unchanged, whether Check succeeds or fails. -/
theorem claim_C4 (n : FirecrackerNetwork) (tapFound : Bool) (current : Ruleset)
    (s : KernelState) :
    applyEffects (simple_check n tapFound current).2 s = s ∧
    (simple_check n tapFound current).2.all (fun e => !e.isMutation) = true := by
  cases tapFound <;>
    simp [simple_check, applyEffects, Effect.applyTo, Effect.isMutation]

/-- Claim C6: the inner default route is built with gateway
`veth1_ip.address` in `veth1_ip`'s own family; because both the route
family and the gateway derive from `veth1_ip` alone (the destination is
unspecified), its families are never mixed, so the mixed-family failure
condition never fires at this step. -/
theorem claim_C6 (veth1_ip : IpInet) :
    (inner_default_route veth1_ip).gateway = veth1_ip.address ∧
    (inner_default_route veth1_ip).family = veth1_ip.address.routeFamily ∧
    (inner_default_route veth1_ip).familiesMixed = false := by
  cases h : veth1_ip.address <;>
    simp [inner_default_route, h, RouteMessage.familiesMixed, IpAddr.routeFamily]

/-- The outer host-route step as the spec words it: a route exactly when
`forwarded_guest_ip` is set, with destination `/32` for IPv4 or `/128` for
IPv6 and gateway `veth2_ip.address` when families agree, and
`ForbiddenDualStackInRoute` when they differ. -/
def outer_forward_route_spec (nd : NamespacedData) :
    Except FirecrackerNetworkError (Option RouteMessage) :=
  match nd.forwarded_guest_ip with
  | none => .ok none
  | some f =>
      if f.isV4 = nd.veth2_ip.address.isV4 then
        .ok (some ⟨f.routeFamily, some (f, if f.isV4 then 32 else 128),
          nd.veth2_ip.address⟩)
      else .error .forbiddenDualStackInRoute

/-- Claim C7: the outer host-route step installs a route iff
`forwarded_guest_ip` is set, with destination `/32` or `/128` by family
and gateway `veth2_ip.address`, failing with `ForbiddenDualStackInRoute`
on a family mismatch; and the routes a namespaced Add actually adds are
the inner default route plus that outer route exactly when the step
returned one — none on the mismatch failure. -/
theorem claim_C7 (nd : NamespacedData) (n : FirecrackerNetwork)
    (idx : String → Nat) (rs : Ruleset) :
    outer_forward_route nd = outer_forward_route_spec nd ∧
    (namespaced_add nd n idx rs).2.filter Effect.isAddRoute =
      Effect.addRoute (inner_default_route nd.veth1_ip) ::
        (match outer_forward_route nd with
         | .ok (some m) => [Effect.addRoute m]
         | _ => []) := by
  constructor
  · cases hfw : nd.forwarded_guest_ip with
    | none => simp [outer_forward_route, outer_forward_route_spec, hfw]
    | some f =>
        cases f <;> cases hv : nd.veth2_ip.address <;>
          simp [outer_forward_route, outer_forward_route_spec, hfw, hv,
            IpAddr.isV4, IpAddr.routeFamily]
  · cases hr : outer_forward_route nd with
    | error e =>
        simp [namespaced_add, hr, setup_outer_interfaces_effects,
          setup_inner_interfaces_effects, Effect.isAddRoute, List.filter_append]
    | ok o =>
        cases o <;>
          simp [namespaced_add, hr, setup_outer_interfaces_effects,
            setup_inner_interfaces_effects, Effect.isAddRoute, List.filter_append]

/-- Whether the description pairs `forwarded_guest_ip` with a `veth2_ip`
of the other address family. -/
def dualMix (nd : NamespacedData) : Bool :=
  match nd.forwarded_guest_ip with
  | some f => f.isV4 != nd.veth2_ip.address.isV4
  | none => false

/-- The scenario S6 namespaced data: IPv4 veths with an IPv6 forwarded
guest address. -/
def cexNamespacedData : NamespacedData :=
  { netns_name := "fcns0", veth1_name := "vh0", veth2_name := "vg0",
    veth1_ip := ⟨.v4 "10.0.0.1", 30⟩, veth2_ip := ⟨.v4 "10.0.0.2", 30⟩,
    forwarded_guest_ip := some (.v6 "2001:db8::7") }

/-- Claim C2 counterexample: the mixed-family S6 description does fail with
`ForbiddenDualStackInRoute`, but its effect trace already contains kernel
mutations — the failure is NOT raised before kernel state is mutated. -/
theorem claim_C2_cex :
    (namespaced_add cexNamespacedData exampleNetwork (fun _ => 1) ⟨[]⟩).1 =
      .error .forbiddenDualStackInRoute ∧
    (namespaced_add cexNamespacedData exampleNetwork (fun _ => 1) ⟨[]⟩).2.any
      Effect.isMutation = true := by
  exact ⟨rfl, rfl⟩

/-- Claim C2 (amended): mixed-family descriptions are not pre-checked;
`ForbiddenDualStackInRoute` is raised exactly when `forwarded_guest_ip` is
set with a family differing from `veth2_ip`'s, and every namespaced Add —
the failing ones included — performs kernel mutations. -/
theorem claim_C2_amended (nd : NamespacedData) (n : FirecrackerNetwork)
    (idx : String → Nat) (rs : Ruleset) :
    ((namespaced_add nd n idx rs).1 = .error .forbiddenDualStackInRoute ↔
      dualMix nd = true) ∧
    (namespaced_add nd n idx rs).2.any Effect.isMutation = true := by
  constructor
  · cases hfw : nd.forwarded_guest_ip with
    | none => simp [namespaced_add, outer_forward_route, hfw, dualMix]
    | some f =>
        cases f <;> cases hv : nd.veth2_ip.address <;>
          simp [namespaced_add, outer_forward_route, hfw, hv, dualMix, IpAddr.isV4]
  · cases hr : outer_forward_route nd with
    | error e =>
        simp [namespaced_add, hr, setup_outer_interfaces_effects, Effect.isMutation]
    | ok o =>
        cases o <;>
          simp [namespaced_add, hr, setup_outer_interfaces_effects, Effect.isMutation]

/-- Claim C8: the inner nftables batch always contains the table, the
postrouting NAT chain (hook postrouting, priority 100, policy accept) and
the SNAT rule; it contains the prerouting NAT chain (hook prerouting,
priority −100, policy accept) and the DNAT rule exactly when
`forwarded_guest_ip` is set; and a namespaced Add applies it exactly once
(its two batch applications are the inner batch, then the outer batch). -/
theorem claim_C8 (fam : NfFamily) (v2n : String) (v2ip gip : IpInet)
    (fwd : Option IpAddr) (nd : NamespacedData) (n : FirecrackerNetwork)
    (idx : String → Nat) (rs : Ruleset) :
    BatchOp.add (.tableObj ⟨fam, NFT_TABLE, none⟩) ∈
      inner_nf_batch fam v2n v2ip fwd gip ∧
    BatchOp.add (.chainObj (innerPostroutingChain fam)) ∈
      inner_nf_batch fam v2n v2ip fwd gip ∧
    BatchOp.add (.ruleObj (innerSnatRule fam v2n v2ip gip)) ∈
      inner_nf_batch fam v2n v2ip fwd gip ∧
    (innerPostroutingChain fam).ctype = some .nat ∧
    (innerPostroutingChain fam).hook = some .postrouting ∧
    (innerPostroutingChain fam).prio = some 100 ∧
    (innerPostroutingChain fam).policy = some .accept ∧
    ((BatchOp.add (.chainObj (innerPreroutingChain fam)) ∈
        inner_nf_batch fam v2n v2ip fwd gip) ↔ fwd.isSome = true) ∧
    (innerPreroutingChain fam).ctype = some .nat ∧
    (innerPreroutingChain fam).hook = some .prerouting ∧
    (innerPreroutingChain fam).prio = some (-100) ∧
    (innerPreroutingChain fam).policy = some .accept ∧
    ((∃ f, fwd = some f ∧
        BatchOp.add (.ruleObj (innerDnatRule fam v2n f gip)) ∈
          inner_nf_batch fam v2n v2ip fwd gip) ↔ fwd.isSome = true) ∧
    (namespaced_add nd n idx rs).2.filter Effect.isApplyBatch =
      [ .applyBatch (inner_nf_batch (nf_family n) nd.veth2_name nd.veth2_ip
          nd.forwarded_guest_ip n.guest_ip)
      , .applyBatch (outer_nf_batch nd n rs) ] := by
  refine ⟨?_, ?_, ?_, rfl, rfl, rfl, rfl, ?_, rfl, rfl, rfl, rfl, ?_, ?_⟩
  · cases fwd <;> simp [inner_nf_batch]
  · cases fwd <;> simp [inner_nf_batch]
  · cases fwd <;> simp [inner_nf_batch]
  · cases fwd with
    | none =>
        simp [inner_nf_batch, innerPreroutingChain, innerPostroutingChain]
    | some f => simp [inner_nf_batch]
  · cases fwd with
    | none => simp
    | some f => simp [inner_nf_batch]
  · cases hr : outer_forward_route nd with
    | error e =>
        simp [namespaced_add, hr, setup_outer_interfaces_effects,
          setup_inner_interfaces_effects, Effect.isApplyBatch, List.filter_append]
    | ok o =>
        cases o <;>
          simp [namespaced_add, hr, setup_outer_interfaces_effects,
            setup_inner_interfaces_effects, Effect.isApplyBatch, List.filter_append]

end Fcnet
